import Mathlib

set_option maxRecDepth 100000

/-!
Shallow embedding of the MAGI deliberation core (TypeScript sources
`src/magi/engine.ts`, `src/magi/types.ts`, `src/groq/ratelimits.ts`,
`src/groq/personas.ts`, `src/i18n/detector.ts`) and proofs about it.

Conventions of the embedding:
* machine time (`Date.now()`) is passed explicitly as an integer `now`;
* JavaScript numbers used for percentages are modelled as rationals (ℚ),
  timestamps and counters as integers (ℤ);
* remote model calls are nondeterministic and are modelled as oracle
  functions indexed by the attempt they answer;
* the in-place mutation of the per-model tracker maps is modelled by
  explicit state passing over a `ModelState` record.
-/

namespace Magi

/-- `Verdict` from `types.ts`: one persona's discrete classification. -/
inductive Verdict where
  | APPROVE
  | DENY
  | CONDITIONAL
  | REFUSE
deriving DecidableEq, Fintype, Repr

/-- `DeliberationResult` from `types.ts`. -/
inductive DeliberationResult where
  | approved
  | denied
  | conditional
  | noConsensus
deriving DecidableEq, Repr

/-- `computeDeliberationResult` from `types.ts` (engine), stated over the
three core verdicts (the source reads them off the `MagiDeliberation`
record). -/
def computeDeliberationResult (m b c : Verdict) : DeliberationResult :=
  let verdicts : List Verdict := [m, b, c]
  let valid := verdicts.filter (fun v => v != Verdict.REFUSE)
  let approves := (valid.filter (fun v => v == Verdict.APPROVE)).length
  let denies := (valid.filter (fun v => v == Verdict.DENY)).length
  let conditionals := (valid.filter (fun v => v == Verdict.CONDITIONAL)).length
  if approves ≥ 2 then DeliberationResult.approved
  else if denies ≥ 2 then DeliberationResult.denied
  else if approves + conditionals ≥ 2 then DeliberationResult.conditional
  else DeliberationResult.noConsensus

/-- The consensus rule exactly as the specification words it, as a function
of the counts `a` (APPROVE), `d` (DENY), `c` (CONDITIONAL) that remain
after REFUSE votes are discarded.  Used to compare the code against the
spec. -/
def consensusSpec (a d c : Nat) : DeliberationResult :=
  if 2 ≤ a then DeliberationResult.approved
  else if 2 ≤ d then DeliberationResult.denied
  else if 2 ≤ a + c then DeliberationResult.conditional
  else DeliberationResult.noConsensus

/-! ## Rate-limit tracker (`src/groq/ratelimits.ts`)

The TypeScript module keeps three per-model mutable maps (`store`,
`rpmWindows`, `tpdWindows`).  The embedding gathers the entries of those
maps for one model into a `ModelState` record and passes it explicitly;
`Date.now()` becomes the explicit argument `now`. -/

/-- `RateLimitInfo` from `ratelimits.ts` (header-derived snapshot). -/
structure RateLimitInfo where
  rpdLimit : ℤ
  rpdRemaining : ℤ
  rpdResetAt : ℤ
  tpmLimit : ℤ
  tpmRemaining : ℤ
  tpmResetAt : ℤ
  updatedAt : ℤ
deriving DecidableEq, Repr

/-- One entry of the `MODEL_LIMITS` table.  `tpd = none` models the
`Infinity` entries of the compound models. -/
structure ModelLimits where
  rpm : ℤ
  tpd : Option ℤ
deriving DecidableEq, Repr

/-- `TpdEntry` from `ratelimits.ts`. -/
structure TpdEntry where
  tokens : ℤ
  dayStart : ℤ
deriving DecidableEq, Repr

/-- The slice of the tracker's mutable maps concerning one model.
`limits` is the model's (immutable) `MODEL_LIMITS` entry; `rpmWindow`,
`tpdEntry` and `info` are the entries of `rpmWindows`, `tpdWindows` and
`store` (`none` = key absent). -/
structure ModelState where
  limits : Option ModelLimits
  rpmWindow : Option (List ℤ)
  tpdEntry : Option TpdEntry
  info : Option RateLimitInfo
deriving DecidableEq, Repr

/-- `LoadInfo` from `ratelimits.ts`. -/
structure LoadInfo where
  tpm : ℚ
  rpm : ℚ
  rpd : ℚ
  tpd : ℚ
deriving DecidableEq, Repr

def RPM_WINDOW_MS : ℤ := 60000

def TPD_WINDOW_MS : ℤ := 86400000

/-- `recordModelRequest` from `ratelimits.ts`: prune entries older than
60 s, then append `now`. -/
def recordModelRequest (now : ℤ) (s : ModelState) : ModelState :=
  let cutoff := now - RPM_WINDOW_MS
  let timestamps := s.rpmWindow.getD []
  let pruned := timestamps.filter (fun ts => decide (cutoff < ts))
  { s with rpmWindow := some (pruned ++ [now]) }

/-- `rpmUsagePercent` from `ratelimits.ts`.  The in-place re-pruning of
the window (`rpmWindows.set(model, recent)`) is a cache refresh that does
not change any value read through this function, so the embedding reads
the state without rewriting it. -/
def rpmUsagePercent (now : ℤ) (s : ModelState) : ℚ :=
  match s.limits with
  | none => -1
  | some limits =>
    match s.rpmWindow with
    | none => -1
    | some timestamps =>
      let cutoff := now - RPM_WINDOW_MS
      let recent := timestamps.filter (fun ts => decide (cutoff < ts))
      ((recent.length : ℚ) / (limits.rpm : ℚ)) * 100

/-- `recordModelTokens` from `ratelimits.ts`. -/
def recordModelTokens (now tokens : ℤ) (s : ModelState) : ModelState :=
  match s.tpdEntry with
  | none => { s with tpdEntry := some ⟨tokens, now⟩ }
  | some entry =>
    if TPD_WINDOW_MS ≤ now - entry.dayStart then
      { s with tpdEntry := some ⟨tokens, now⟩ }
    else
      { s with tpdEntry := some ⟨entry.tokens + tokens, entry.dayStart⟩ }

/-- `tpdUsagePercent` from `ratelimits.ts`. -/
def tpdUsagePercent (now : ℤ) (s : ModelState) : ℚ :=
  match s.limits with
  | none => -1
  | some limits =>
    match limits.tpd with
    | none => -1
    | some tpdLimit =>
      match s.tpdEntry with
      | none => -1
      | some entry =>
        if TPD_WINDOW_MS ≤ now - entry.dayStart then 0
        else min 100 (((entry.tokens : ℚ) / (tpdLimit : ℚ)) * 100)

/-- `updateFromHeaders` from `ratelimits.ts`, at the level of the already
parsed header record: the function overwrites the model's snapshot with
the freshly parsed `RateLimitInfo` (the string parsing itself, and the
early return when both request headers are absent — in which case the
state is unchanged — are not needed by any claim). -/
def updateFromHeaders (info : RateLimitInfo) (s : ModelState) : ModelState :=
  { s with info := some info }

/-- `dimensionUsage` from `ratelimits.ts`: usage percentage for a single
header-based dimension.  The source reads `Date.now()`; here `now` is the
first argument. -/
def dimensionUsage (now limit remaining resetAt : ℤ) : ℚ :=
  if limit ≤ 0 then -1
  else if 0 < resetAt ∧ resetAt < now then 0
  else max 0 (min 100 ((((limit : ℚ) - (remaining : ℚ)) / (limit : ℚ)) * 100))

/-- `getLoadInfo` from `ratelimits.ts`. -/
def getLoadInfo (now : ℤ) (s : ModelState) : LoadInfo :=
  let rpm := rpmUsagePercent now s
  let tpd := tpdUsagePercent now s
  match s.info with
  | none =>
    { tpm := -1, rpm := if 0 ≤ rpm then rpm else -1, rpd := -1, tpd := tpd }
  | some info =>
    let rpd := dimensionUsage now info.rpdLimit info.rpdRemaining info.rpdResetAt
    let tpm := dimensionUsage now info.tpmLimit info.tpmRemaining info.tpmResetAt
    { tpm := tpm, rpm := if 0 ≤ rpm then rpm else -1, rpd := rpd, tpd := tpd }

def SKIP_THRESHOLD : ℚ := 95

/-- `shouldSkipModel` from `ratelimits.ts`. -/
def shouldSkipModel (now : ℤ) (s : ModelState) : Bool :=
  let load := getLoadInfo now s
  decide (SKIP_THRESHOLD ≤ load.tpm) || decide (SKIP_THRESHOLD ≤ load.rpm) ||
    decide (SKIP_THRESHOLD ≤ load.rpd) || decide (SKIP_THRESHOLD ≤ load.tpd)

/-! ## String primitives

JavaScript string operations used by the engine, modelled structurally
over the character list so that they are kernel-computable.  `strTrim`
models `String.prototype.trim` (strip leading/trailing whitespace),
`strTake s n` models `s.slice(0, n)` (which clamps to the length). -/

def strTrim (s : String) : String :=
  String.mk (((s.data.dropWhile Char.isWhitespace).reverse.dropWhile Char.isWhitespace).reverse)

def strTake (s : String) (n : ℕ) : String :=
  String.mk (s.data.take n)

/-- The U+2026 horizontal ellipsis appended by every truncation site. -/
def ellipsis : String := "…"

/-! ## Model identifiers and static limits (`src/groq/personas.ts`) -/

namespace MODELS

def GPT_OSS_120B : String := "openai/gpt-oss-120b"

def KIMI_K2 : String := "moonshotai/kimi-k2-instruct"

def KIMI_K2_0905 : String := "moonshotai/kimi-k2-instruct-0905"

def LLAMA4_SCOUT : String := "meta-llama/llama-4-scout-17b-16e-instruct"

def LLAMA4_MAVERICK : String := "meta-llama/llama-4-maverick-17b-128e-instruct"

def LLAMA33_70B : String := "llama-3.3-70b-versatile"

def LLAMA31_8B : String := "llama-3.1-8b-instant"

def QWEN3_32B : String := "qwen/qwen3-32b"

def COMPOUND : String := "groq/compound"

def COMPOUND_MINI : String := "groq/compound-mini"

end MODELS

/-- The `MODEL_LIMITS` table from `ratelimits.ts` (`tpd = none` models
`Infinity`). -/
def MODEL_LIMITS : List (String × ModelLimits) :=
  [(MODELS.GPT_OSS_120B, ⟨30, some 200000⟩),
   (MODELS.KIMI_K2, ⟨60, some 300000⟩),
   (MODELS.KIMI_K2_0905, ⟨60, some 300000⟩),
   (MODELS.LLAMA4_SCOUT, ⟨30, some 500000⟩),
   (MODELS.LLAMA4_MAVERICK, ⟨30, some 500000⟩),
   (MODELS.LLAMA33_70B, ⟨30, some 100000⟩),
   (MODELS.LLAMA31_8B, ⟨30, some 500000⟩),
   (MODELS.QWEN3_32B, ⟨60, some 500000⟩),
   (MODELS.COMPOUND, ⟨30, none⟩),
   (MODELS.COMPOUND_MINI, ⟨30, none⟩)]

/-- `MODEL_LIMITS[model]` as a lookup. -/
def modelLimitsFor (model : String) : Option ModelLimits :=
  (MODEL_LIMITS.find? (fun p => p.1 == model)).map Prod.snd

/-- The tracker states reachable for one model by the mutating tracker
operations, starting from the fresh in-memory state (no persisted data).
The `tokens` step records the API's reported token usage, which is a
nonnegative count. -/
inductive Reachable (model : String) : ModelState → Prop where
  | init : Reachable model ⟨modelLimitsFor model, none, none, none⟩
  | request (now : ℤ) {s : ModelState} :
      Reachable model s → Reachable model (recordModelRequest now s)
  | tokens (now n : ℤ) (hn : 0 ≤ n) {s : ModelState} :
      Reachable model s → Reachable model (recordModelTokens now n s)
  | headers (info : RateLimitInfo) {s : ModelState} :
      Reachable model s → Reachable model (updateFromHeaders info s)

/-! ## Engine data model (`src/magi/types.ts`, `src/magi/engine.ts`) -/

inductive SupportedLanguage where
  | en
  | ja
  | ko
deriving DecidableEq, Repr

/-- `SupportedLanguage | "auto"` from the `deliberate` signature. -/
inductive LangChoice where
  | auto
  | fixed (lang : SupportedLanguage)
deriving DecidableEq, Repr

/-- Outcome of one remote chat call: a hard failure (network error,
timeout, 429/503, thrown by `client.chat`) carrying its message, or the
returned text. -/
inductive ChatResult where
  | err (msg : String)
  | ok (content : String)
deriving DecidableEq, Repr

def CHAR_LIMIT : ℕ := 240

def CONDITION_LIMIT : ℕ := 120

def DATA_PROCESSING_MODEL : String := MODELS.LLAMA4_SCOUT

def EMERGENCY_MODEL : String := MODELS.LLAMA31_8B

def DATA_MODELS : List String := [DATA_PROCESSING_MODEL, EMERGENCY_MODEL]

def SEARCH_MODELS : List String := [ MODELS.COMPOUND, MODELS.COMPOUND_MINI]

/-- `PersonaConfig` from `types.ts`, restricted to the fields the
orchestration logic reads (`temperature` and `systemPrompt` are opaque
prompt content, never inspected by the control flow). -/
structure PersonaConfig where
  name : String
  model : String
  fallbackModels : List String
  emergencyModel : String
deriving DecidableEq, Repr

/-- `PersonaResponse` from `types.ts` (`latencyMs`, a wall-clock
measurement, is not modelled; `error?` becomes an `Option`). -/
structure PersonaResponse where
  persona : String
  content : String
  verdict : Verdict
  model : String
  error : Option String
deriving DecidableEq, Repr

/-- `getPersonaConfigs` from `personas.ts` (orchestration fields). -/
def melchiorConfig : PersonaConfig :=
  ⟨"MELCHIOR-1", MODELS.QWEN3_32B, [ MODELS.LLAMA4_MAVERICK], EMERGENCY_MODEL⟩

def balthasarConfig : PersonaConfig :=
  ⟨"BALTHASAR-2", MODELS.LLAMA33_70B, [ MODELS.GPT_OSS_120B], EMERGENCY_MODEL⟩

def casperConfig : PersonaConfig :=
  ⟨"CASPER-3", MODELS.KIMI_K2, [ MODELS.KIMI_K2_0905], EMERGENCY_MODEL⟩

/-! ## Language mixing detection (`hasLanguageMixing`) and the local
language detector (`src/i18n/detector.ts`) -/

def charIn (c : Char) (lo hi : ℕ) : Bool :=
  decide (lo ≤ c.toNat) && decide (c.toNat ≤ hi)

def isLatinLetter (c : Char) : Bool :=
  charIn c 65 90 || charIn c 97 122

/-- Number of matches of the regex `[a-zA-Z]{3,}` in the given character
list: maximal runs of Latin letters of length at least 3.  `run` is the
length of the Latin run ending just before the current position. -/
def latinRunCount : List Char → ℕ → ℕ
  | [], run => if 3 ≤ run then 1 else 0
  | c :: rest, run =>
    if isLatinLetter c then latinRunCount rest (run + 1)
    else (if 3 ≤ run then 1 else 0) + latinRunCount rest 0

/-- `hasLanguageMixing` from `engine.ts`. -/
def hasLanguageMixing (text : String) (language : SupportedLanguage) : Bool :=
  match language with
  | SupportedLanguage.ko =>
    text.data.any (fun c =>
      charIn c 0x4E00 0x9FFF || charIn c 0x3040 0x309F || charIn c 0x30A0 0x30FF ||
        charIn c 0xC0 0x24F || charIn c 0x1E00 0x1EFF)
  | SupportedLanguage.en =>
    text.data.any (fun c =>
      charIn c 0x4E00 0x9FFF || charIn c 0x3040 0x309F || charIn c 0x30A0 0x30FF ||
        charIn c 0xAC00 0xD7AF)
  | SupportedLanguage.ja => decide (3 ≤ latinRunCount text.data 0)

def isHangulChar (c : Char) : Bool :=
  charIn c 0xAC00 0xD7AF || charIn c 0x1100 0x11FF || charIn c 0x3130 0x318F

def isKanaChar (c : Char) : Bool :=
  charIn c 0x3040 0x309F || charIn c 0x30A0 0x30FF

/-- `detectLanguage` from `detector.ts`. -/
def detectLanguage (text : String) : SupportedLanguage :=
  let korean := (text.data.filter isHangulChar).length
  let japanese := (text.data.filter isKanaChar).length
  let english := (text.data.filter isLatinLetter).length
  let total := korean + japanese + english
  if total = 0 then SupportedLanguage.en
  else if japanese ≤ korean ∧ english ≤ korean then SupportedLanguage.ko
  else if korean ≤ japanese ∧ english ≤ japanese then SupportedLanguage.ja
  else SupportedLanguage.en

/-! ## Post-processing calls (`purifyLanguage`, `condense`) -/

/-- `purifyLanguage` from `engine.ts`, as a function of the raw result of
its inner chat call (the prompt construction is opaque content). -/
def purifyLanguage (raw : ChatResult) : Option String :=
  match raw with
  | ChatResult.err _ => none
  | ChatResult.ok result =>
    let trimmed := strTrim result
    if trimmed.length = 0 then none else some trimmed

/-- `condense` from `engine.ts`, as a function of the target's character
budget and the raw result of its inner chat call. -/
def condense (limit : ℕ) (raw : ChatResult) : Option String :=
  match raw with
  | ChatResult.err _ => none
  | ChatResult.ok result =>
    let trimmed := strTrim result
    if trimmed.length = 0 then none
    else if trimmed.length ≤ limit then some trimmed
    else some (strTake trimmed (limit - 1) ++ ellipsis)

/-! ## Condition extraction (`extractCondition`, engine.ts lines 56–156)

Remote calls are oracles indexed by the loop index `i`.  `condMatch i`
is the capture group of `/CONDITION:\s*(.+)/` on attempt `i`'s response
and `langMatch i` the lowercased capture of `/LANG:\s*(en|ja|ko)/i`;
the regex evaluation itself is abstracted into the oracle. -/

structure ExtractionResult where
  condition : Option String
  detectedLang : Option SupportedLanguage
deriving DecidableEq, Repr

structure ExtractOracles where
  chat : ℕ → ChatResult
  condMatch : ℕ → Option String
  langMatch : ℕ → Option SupportedLanguage
  condenseChat : ℕ → ChatResult

/-- The fallback loop of `extractCondition`.  The loop in the source runs
`i` over the index range of `DATA_MODELS`; here the remaining models are
carried as a list (`rest = []` exactly when `i` is the last index) and
`i` numbers the attempts for the oracles and the attempt trace.  The
second component is the list of loop indices whose model was actually
attempted (its `client.chat` call issued), in order. -/
def extractConditionGo (o : ExtractOracles) (isAuto : Bool) :
    ℕ → List String → ExtractionResult × List ℕ
  | _, [] => (⟨none, none⟩, [])
  | i, _model :: rest =>
    match o.chat i with
    | ChatResult.err _ =>
      match rest with
      | [] => (⟨none, none⟩, [i])
      | _ :: _ =>
        let out := extractConditionGo o isAuto (i + 1) rest
        (out.1, i :: out.2)
    | ChatResult.ok result =>
      if result.length = 0 then
        match rest with
        | [] => (⟨none, none⟩, [i])
        | _ :: _ =>
          let out := extractConditionGo o isAuto (i + 1) rest
          (out.1, i :: out.2)
      else
        let detectedLang := if isAuto then o.langMatch i else none
        match o.condMatch i with
        | none =>
          match rest with
          | [] => (⟨none, detectedLang⟩, [i])
          | _ :: _ =>
            let out := extractConditionGo o isAuto (i + 1) rest
            (out.1, i :: out.2)
        | some captured =>
          if (strTrim captured).length = 0 then
            match rest with
            | [] => (⟨none, detectedLang⟩, [i])
            | _ :: _ =>
              let out := extractConditionGo o isAuto (i + 1) rest
              (out.1, i :: out.2)
          else
            let rawCond := strTrim captured
            let condition :=
              if CONDITION_LIMIT < rawCond.length then
                match condense CONDITION_LIMIT (o.condenseChat i) with
                | some c => c
                | none => strTake rawCond (CONDITION_LIMIT - 1) ++ ellipsis
              else rawCond
            (⟨some condition, detectedLang⟩, [i])

/-- `extractCondition` over the `DATA_MODELS` chain. -/
def extractCondition (o : ExtractOracles) (isAuto : Bool) : ExtractionResult × List ℕ :=
  extractConditionGo o isAuto 0 DATA_MODELS

/-! ## Search context (`fetchSearchContext`, engine.ts lines 168–235) -/

structure SearchResult where
  context : Option String
  failed : Bool
deriving DecidableEq, Repr

structure SearchOracles where
  chat : ℕ → ChatResult

/-- The fallback loop of `fetchSearchContext` (the truncation of the
question to `SEARCH_QUESTION_LIMIT` characters only shapes the prompt
text, which is opaque to the control flow). -/
def fetchSearchContextGo (o : SearchOracles) : ℕ → List String → SearchResult × List ℕ
  | _, [] => (⟨none, true⟩, [])
  | i, _model :: rest =>
    match o.chat i with
    | ChatResult.ok result =>
      if (result.length == 0) || (strTrim result == "NONE") then (⟨none, false⟩, [i])
      else (⟨some (strTrim result), false⟩, [i])
    | ChatResult.err _ =>
      match rest with
      | [] => (⟨none, true⟩, [i])
      | _ :: _ =>
        let out := fetchSearchContextGo o (i + 1) rest
        (out.1, i :: out.2)

def fetchSearchContext (o : SearchOracles) : SearchResult × List ℕ :=
  fetchSearchContextGo o 0 SEARCH_MODELS

/-! ## Persona query (`queryPersona`, engine.ts lines 539–650) -/

/-- Oracles for one persona chain.  `skip i` is the value the live call
`shouldSkipModel(models[i])` returns at loop index `i`; `chat`,
`purifyChat` and `condenseChat` are the remote calls issued at loop
index `i`; `sanitize` abstracts `sanitizeContent` (a pure
markdown-stripping text transformation whose output no claim
inspects). -/
structure PersonaOracles where
  skip : ℕ → Bool
  chat : ℕ → ChatResult
  purifyChat : ℕ → ChatResult
  condenseChat : ℕ → ChatResult
  sanitize : String → String

/-- The language-shaping step of `queryPersona`'s success path: apply the
mixing check to the trimmed content `final0` and, when it fires, the
purification rewrite, keeping `final0` if purification fails. -/
def personaShaped (o : PersonaOracles) (language : SupportedLanguage) (i : ℕ)
    (final0 : String) : String :=
  if hasLanguageMixing final0 language then
    match purifyLanguage (o.purifyChat i) with
    | some purified => purified
    | none => final0
  else final0

/-- The fallback loop of `queryPersona`.  `tMsg key` is the localization
collaborator `t(language, key)`.  As in `extractConditionGo`, the second
component lists the loop indices whose model was attempted. -/
def queryPersonaGo (o : PersonaOracles) (tMsg : String → String) (config : PersonaConfig)
    (language : SupportedLanguage) : ℕ → List String → PersonaResponse × List ℕ
  | _, [] =>
    (⟨config.name, tMsg ("coreMalfunction"), Verdict.REFUSE, config.model,
      some ("All models exhausted")⟩, [])
  | i, model :: rest =>
    if rest ≠ [] ∧ o.skip i = true then
      queryPersonaGo o tMsg config language (i + 1) rest
    else
      match o.chat i with
      | ChatResult.err msg =>
        match rest with
        | [] => (⟨config.name, tMsg ("coreMalfunction"), Verdict.REFUSE, model, some msg⟩, [i])
        | _ :: _ =>
          let out := queryPersonaGo o tMsg config language (i + 1) rest
          (out.1, i :: out.2)
      | ChatResult.ok content =>
        if (strTrim content).length = 0 then
          match rest with
          | [] =>
            (⟨config.name, tMsg ("coreMalfunction"), Verdict.REFUSE, model,
              some ("Empty response from model")⟩, [i])
          | _ :: _ =>
            let out := queryPersonaGo o tMsg config language (i + 1) rest
            (out.1, i :: out.2)
        else
          let final0 := strTrim content
          let final1 := personaShaped o language i final0
          if CHAR_LIMIT < final1.length then
            match condense CHAR_LIMIT (o.condenseChat i) with
            | none =>
              (⟨config.name, tMsg ("outputOverflow"), Verdict.REFUSE, model,
                some ("Condense failed after max attempts")⟩, [i])
            | some condensed =>
              (⟨config.name, o.sanitize condensed, Verdict.REFUSE, model, none⟩, [i])
          else
            (⟨config.name, o.sanitize final1, Verdict.REFUSE, model, none⟩, [i])

/-- `[config.model, ...config.fallbackModels, config.emergencyModel]`. -/
def personaModels (config : PersonaConfig) : List String :=
  config.model :: (config.fallbackModels ++ [config.emergencyModel])

def queryPersona (o : PersonaOracles) (tMsg : String → String) (config : PersonaConfig)
    (language : SupportedLanguage) : PersonaResponse × List ℕ :=
  queryPersonaGo o tMsg config language 0 (personaModels config)

/-! ## Deliberation orchestrator (`deliberate`, engine.ts lines 654–762) -/

/-- Oracles for one deliberation.  `imageDesc` is the result of
`describeImage` when an image was supplied (its internal truncation is
part of the abstracted call); `classify j` is the verdict
`classifyVerdict` returns for persona `j` — that function is total and
already folds every failure of its own chain into `REFUSE`; `tMsg` is
the localization collaborator `t`. -/
structure DeliberateOracles where
  imageDesc : Option String
  extract : ExtractOracles
  search : SearchOracles
  melchiorO : PersonaOracles
  balthasarO : PersonaOracles
  casperO : PersonaOracles
  classify : ℕ → Verdict
  tMsg : SupportedLanguage → String → String

/-- `MagiDeliberation` from `types.ts`. -/
structure MagiDeliberation where
  question : String
  approvalCondition : String
  searchContext : Option String
  searchFailed : Bool
  imageContext : Option String
  fileContext : Option String
  userContext : Option String
  language : SupportedLanguage
  melchior : PersonaResponse
  balthasar : PersonaResponse
  casper : PersonaResponse
deriving DecidableEq, Repr

/-- `deliberate` from `engine.ts`.  The embedding is total, so the
`Promise.allSettled` rejection fallback (`unwrap`) is unreachable and the
three persona values are used directly. -/
def deliberate (o : DeliberateOracles) (question : String) (language : LangChoice)
    (imageBase64 : Option String) (userContext : Option String)
    (fileContext : Option String) : MagiDeliberation :=
  let prelimLang : SupportedLanguage :=
    match language with
    | LangChoice.fixed l => l
    | LangChoice.auto => detectLanguage question
  let imageContext : Option String :=
    match imageBase64 with
    | some _ => o.imageDesc
    | none => none
  let isAuto : Bool := language == LangChoice.auto
  let extraction := (extractCondition o.extract isAuto).1
  let approvalCondition := extraction.condition.getD ""
  let lang : SupportedLanguage :=
    match language with
    | LangChoice.fixed l => l
    | LangChoice.auto => extraction.detectedLang.getD prelimLang
  let search := (fetchSearchContext o.search).1
  let melchiorR := (queryPersona o.melchiorO (o.tMsg lang) melchiorConfig lang).1
  let balthasarR := (queryPersona o.balthasarO (o.tMsg lang) balthasarConfig lang).1
  let casperR := (queryPersona o.casperO (o.tMsg lang) casperConfig lang).1
  let verdict0 := if melchiorR.error ≠ none then Verdict.REFUSE else o.classify 0
  let verdict1 := if balthasarR.error ≠ none then Verdict.REFUSE else o.classify 1
  let verdict2 := if casperR.error ≠ none then Verdict.REFUSE else o.classify 2
  { question := question
    approvalCondition := approvalCondition
    searchContext := search.context
    searchFailed := search.failed
    imageContext := imageContext
    fileContext := fileContext
    userContext := userContext
    language := lang
    melchior := { melchiorR with verdict := verdict0 }
    balthasar := { balthasarR with verdict := verdict1 }
    casper := { casperR with verdict := verdict2 } }

/-! ## Spec-side readings and failure predicates -/

/-- The specification's reading of `dimensionUsage`, word for word: −1
when no limit is known; 0 whenever `now > resetAt`; otherwise the clamped
percentage.  (The source additionally requires `resetAt > 0` before the
expiry branch.)  Defined only to be compared with `dimensionUsage`. -/
def dimensionUsageSpec (now limit remaining resetAt : ℤ) : ℚ :=
  if limit ≤ 0 then -1
  else if resetAt < now then 0
  else max 0 (min 100 ((((limit : ℚ) - (remaining : ℚ)) / (limit : ℚ)) * 100))

/-- Attempt `i` of a persona chain failed hard: the chat call threw, or
returned an effectively empty body (which `queryPersona` turns into a
thrown error). -/
def attemptFailed (o : PersonaOracles) (i : ℕ) : Prop :=
  (∃ msg, o.chat i = ChatResult.err msg) ∨
    (∃ content, o.chat i = ChatResult.ok content ∧ (strTrim content).length = 0)

/-- Attempt `i` of a persona chain produced a usable answer that exceeded
`CHAR_LIMIT` after shaping, and the condensation call failed — the
output-overflow soft error of `queryPersona`. -/
def overflowSoftError (o : PersonaOracles) (language : SupportedLanguage) (i : ℕ) : Prop :=
  ∃ content, o.chat i = ChatResult.ok content ∧ (strTrim content).length ≠ 0 ∧
    CHAR_LIMIT < (personaShaped o language i (strTrim content)).length ∧
    condense CHAR_LIMIT (o.condenseChat i) = none

/-! ## Concrete instances used by witnesses and counterexamples -/

/-- A tracker state whose RPD dimension reads 100 % at `now = 0`
(header snapshot: daily limit 100, none remaining, reset pending). -/
def s95 : ModelState :=
  ⟨none, none, none, some ⟨100, 0, 10, 0, 0, 0, 0⟩⟩

/-- Extraction oracles whose first attempt answers with a usable
condition. -/
def cexExtractO : ExtractOracles :=
  ⟨fun _ => ChatResult.ok ("x"), fun _ => some ("ok"), fun _ => none,
   fun _ => ChatResult.err ("e")⟩

/-- Search oracles whose first attempt answers with context. -/
def cexSearchO : SearchOracles :=
  ⟨fun _ => ChatResult.ok ("ctx")⟩

/-- Persona oracles reporting every model as overloaded and every chat
call as failed. -/
def wPersonaO : PersonaOracles :=
  ⟨fun _ => true, fun _ => ChatResult.err ("down"), fun _ => ChatResult.err ("down"),
   fun _ => ChatResult.err ("down"), fun s => s⟩

/-- A 241-character answer: one character over `CHAR_LIMIT`. -/
def longContent : String :=
  String.mk (List.replicate 241 'a')

/-- Persona oracles whose first model answers at once with `longContent`
while the condensation call fails. -/
def cexPersonaO : PersonaOracles :=
  ⟨fun _ => false, fun _ => ChatResult.ok longContent, fun _ => ChatResult.err ("p"),
   fun _ => ChatResult.err ("c"), fun s => s⟩

/-- Fresh tracker state of `MODELS.GPT_OSS_120B` (30 requests/min). -/
def gptInitState : ModelState :=
  ⟨modelLimitsFor MODELS.GPT_OSS_120B, none, none, none⟩

/-- `recordModelRequest` iterated `n` times at the same instant. -/
def repeatRecord (now : ℤ) : ℕ → ModelState → ModelState
  | 0, s => s
  | n + 1, s => repeatRecord now n (recordModelRequest now s)

/-- 31 requests recorded within one minute on a model whose RPM limit
is 30. -/
def overloadState : ModelState :=
  repeatRecord 0 31 gptInitState

/-- `recordModelRequest` once per entry of `times`, in order. -/
def recordAll (times : List ℤ) (s : ModelState) : ModelState :=
  times.foldl (fun acc t => recordModelRequest t acc) s

/-- The model's RPM window as a plain list (empty when never tracked). -/
def winOf (s : ModelState) : List ℤ :=
  s.rpmWindow.getD []

/-- Fresh tracker state with a known RPM limit of 30. -/
def rpmInitState : ModelState :=
  ⟨some ⟨30, some 200000⟩, none, none, none⟩

/-! ## Theorems -/

/-- C1: `computeDeliberationResult` discards REFUSE verdicts and applies
the spec's count rule (`approved` if `a ≥ 2`, else `denied` if `d ≥ 2`,
else `conditional` if `a + c ≥ 2`, else `noConsensus`), and the five
example votes of the spec evaluate as stated. -/
theorem consensus_matches_spec :
    (∀ v1 v2 v3 : Verdict,
      computeDeliberationResult v1 v2 v3 =
        consensusSpec
          ((([v1, v2, v3] : List Verdict).filter (fun v => v != Verdict.REFUSE)).count
            Verdict.APPROVE)
          ((([v1, v2, v3] : List Verdict).filter (fun v => v != Verdict.REFUSE)).count
            Verdict.DENY)
          ((([v1, v2, v3] : List Verdict).filter (fun v => v != Verdict.REFUSE)).count
            Verdict.CONDITIONAL)) ∧
    computeDeliberationResult Verdict.APPROVE Verdict.APPROVE Verdict.DENY =
      DeliberationResult.approved ∧
    computeDeliberationResult Verdict.DENY Verdict.DENY Verdict.CONDITIONAL =
      DeliberationResult.denied ∧
    computeDeliberationResult Verdict.APPROVE Verdict.CONDITIONAL Verdict.REFUSE =
      DeliberationResult.conditional ∧
    computeDeliberationResult Verdict.APPROVE Verdict.DENY Verdict.REFUSE =
      DeliberationResult.noConsensus ∧
    computeDeliberationResult Verdict.REFUSE Verdict.REFUSE Verdict.REFUSE =
      DeliberationResult.noConsensus := by
  decide

/-- C7: `computeDeliberationResult` is total (it is a Lean function) and
depends only on the multiset of the three verdicts: triples with equal
per-verdict counts evaluate equally. -/
theorem consensus_permutation_invariant :
    ∀ u1 u2 u3 v1 v2 v3 : Verdict,
      (∀ w : Verdict,
        ([u1, u2, u3] : List Verdict).count w = ([v1, v2, v3] : List Verdict).count w) →
      computeDeliberationResult u1 u2 u3 = computeDeliberationResult v1 v2 v3 := by
  decide

/-- Witness for C7 at a concrete permutation. -/
theorem consensus_permutation_invariant_witness :
    computeDeliberationResult Verdict.APPROVE Verdict.DENY Verdict.REFUSE =
      computeDeliberationResult Verdict.REFUSE Verdict.APPROVE Verdict.DENY :=
  consensus_permutation_invariant Verdict.APPROVE Verdict.DENY Verdict.REFUSE
    Verdict.REFUSE Verdict.APPROVE Verdict.DENY (by decide)

/-- C3 counterexample: at `limit = 100, remaining = 50, resetAt = 0,
now = 1` the claim's unconditional expiry rule (`now > resetAt ⇒ 0`)
demands 0, but `dimensionUsage` — whose expiry branch additionally
requires `resetAt > 0` — returns the clamped percentage 50. -/
theorem dimensionUsage_claim_false :
    dimensionUsage 1 100 50 0 = 50 ∧ dimensionUsageSpec 1 100 50 0 = 0 := by
  constructor
  · rw [dimensionUsage, if_neg (by norm_num), if_neg (by norm_num)]
    norm_num [min_def, max_def]
  · rw [dimensionUsageSpec, if_neg (by norm_num), if_pos (by norm_num)]

/-- C3 amended: `dimensionUsage` returns −1 when `limit ≤ 0`; returns 0
when `resetAt > 0` and `now > resetAt`; otherwise returns the clamped
percentage `(limit − remaining)/limit·100` bounded to [0, 100].  The
claim's two concrete examples hold: a full remaining quota always reads
0, and `limit = 0` always reads −1. -/
theorem dimensionUsage_amended :
    (∀ now limit remaining resetAt : ℤ,
      (limit ≤ 0 → dimensionUsage now limit remaining resetAt = -1) ∧
      (0 < limit → 0 < resetAt → resetAt < now →
        dimensionUsage now limit remaining resetAt = 0) ∧
      (0 < limit → ¬(0 < resetAt ∧ resetAt < now) →
        dimensionUsage now limit remaining resetAt =
          max 0 (min 100 ((((limit : ℚ) - (remaining : ℚ)) / (limit : ℚ)) * 100)))) ∧
    (∀ now remaining resetAt : ℤ, dimensionUsage now 0 remaining resetAt = -1) ∧
    (∀ now resetAt : ℤ, dimensionUsage now 100 100 resetAt = 0) := by
  refine ⟨fun now limit remaining resetAt => ⟨fun h => ?_, fun h1 h2 h3 => ?_, fun h1 h2 => ?_⟩,
    fun now remaining resetAt => ?_, fun now resetAt => ?_⟩
  · rw [dimensionUsage, if_pos h]
  · rw [dimensionUsage, if_neg (by omega), if_pos ⟨h2, h3⟩]
  · rw [dimensionUsage, if_neg (by omega), if_neg h2]
  · rw [dimensionUsage, if_pos le_rfl]
  · rw [dimensionUsage, if_neg (by norm_num)]
    split
    · rfl
    · norm_num [min_def, max_def]

/-- Witness for C3's amended statement: a pending positive reset in the
past clears the usage. -/
theorem dimensionUsage_amended_witness :
    dimensionUsage 10 100 30 5 = 0 :=
  (dimensionUsage_amended.1 10 100 30 5).2.1 (by norm_num) (by norm_num) (by norm_num)

/-- C4: `shouldSkipModel` is true exactly when one of the four dimensions
reported by `getLoadInfo` is at least 95, and a model with no data on any
dimension (all four −1) is never skipped. -/
theorem shouldSkipModel_iff_high_load :
    (∀ (now : ℤ) (s : ModelState),
      shouldSkipModel now s = true ↔
        (95 ≤ (getLoadInfo now s).tpm ∨ 95 ≤ (getLoadInfo now s).rpm ∨
          95 ≤ (getLoadInfo now s).rpd ∨ 95 ≤ (getLoadInfo now s).tpd)) ∧
    (∀ (now : ℤ) (s : ModelState),
      getLoadInfo now s = ⟨-1, -1, -1, -1⟩ → shouldSkipModel now s = false) := by
  have h1 : ∀ (now : ℤ) (s : ModelState),
      shouldSkipModel now s = true ↔
        (95 ≤ (getLoadInfo now s).tpm ∨ 95 ≤ (getLoadInfo now s).rpm ∨
          95 ≤ (getLoadInfo now s).rpd ∨ 95 ≤ (getLoadInfo now s).tpd) := by
    intro now s
    simp [shouldSkipModel, SKIP_THRESHOLD, Bool.or_eq_true, decide_eq_true_eq, or_assoc]
  refine ⟨h1, fun now s h => ?_⟩
  cases hb : shouldSkipModel now s
  · rfl
  · exfalso
    have hload := (h1 now s).mp hb
    rw [h] at hload
    rcases hload with h' | h' | h' | h' <;> norm_num at h'

/-- Witness for C4: the never-queried fresh state reports −1 everywhere
and is not skipped. -/
theorem shouldSkipModel_iff_high_load_witness :
    shouldSkipModel 0 ⟨none, none, none, none⟩ = false :=
  shouldSkipModel_iff_high_load.2 0 ⟨none, none, none, none⟩
    (by norm_num [getLoadInfo, rpmUsagePercent, tpdUsagePercent])

/-- Filtering a constant list by a predicate that accepts the constant
keeps the list. -/
theorem filter_replicate_keep {p : ℤ → Bool} {a : ℤ} (h : p a = true) :
    ∀ k : ℕ, (List.replicate k a).filter p = List.replicate k a := by
  intro k
  induction k with
  | zero => rfl
  | succ n ih => simp [List.replicate_succ, List.filter_cons, h, ih]

/-- Iterating `recordModelRequest` preserves reachability. -/
theorem repeatRecord_reachable (model : String) (now : ℤ) :
    ∀ (n : ℕ) (s : ModelState),
      Reachable model s → Reachable model (repeatRecord now n s) := by
  intro n
  induction n with
  | zero => exact fun s h => h
  | succ m ih => exact fun s h => ih _ (Reachable.request now h)

/-- The RPM field of `getLoadInfo` does not depend on the header
snapshot. -/
theorem getLoadInfo_rpm (now : ℤ) (s : ModelState) :
    (getLoadInfo now s).rpm =
      if 0 ≤ rpmUsagePercent now s then rpmUsagePercent now s else -1 := by
  cases h : s.info <;> simp [getLoadInfo, h]

/-- The RPM usage read off `overloadState`. -/
theorem overloadState_rpm : rpmUsagePercent 0 overloadState = 31 / 30 * 100 := by
  rw [show overloadState =
      ⟨some ⟨30, some 200000⟩, some (List.replicate 31 0), none, none⟩ from by decide]
  simp only [rpmUsagePercent]
  rw [filter_replicate_keep (by decide)]
  simp

/-- C5 (code bug): the state reached by recording 31 requests inside one
minute on `MODELS.GPT_OSS_120B` (RPM limit 30) makes the RPM dimension of
`getLoadInfo` read 3100/30 ≈ 103.3, strictly above 100 — `rpmUsagePercent`
has no upper clamp, contradicting the claim and the code's own
documentation that each dimension is 0–100 or −1. -/
theorem rpm_exceeds_100_reachable :
    Reachable MODELS.GPT_OSS_120B overloadState ∧
    (getLoadInfo 0 overloadState).rpm = 3100 / 30 ∧
    100 < (getLoadInfo 0 overloadState).rpm := by
  refine ⟨repeatRecord_reachable _ 0 31 _ Reachable.init, ?_, ?_⟩ <;>
    rw [getLoadInfo_rpm, overloadState_rpm] <;> norm_num

/-- Recording requests never changes the known limits. -/
theorem recordAll_limits (times : List ℤ) :
    ∀ s : ModelState, (recordAll times s).limits = s.limits := by
  induction times with
  | nil => intro s; rfl
  | cons t ts ih =>
    intro s
    rw [show recordAll (t :: ts) s = recordAll ts (recordModelRequest t s) from rfl, ih]
    rfl

/-- Every entry of the window after one `recordModelRequest` is an old
entry or the recorded instant. -/
theorem winOf_recordModelRequest (now : ℤ) (s : ModelState) :
    ∀ x ∈ winOf (recordModelRequest now s), x ∈ winOf s ∨ x = now := by
  intro x hx
  simp only [recordModelRequest, winOf, Option.getD_some] at hx
  rcases List.mem_append.mp hx with h | h
  · exact Or.inl (List.mem_of_mem_filter h)
  · simp only [List.mem_singleton] at h
    exact Or.inr h

/-- Every entry of the window after a batch of requests is an old entry
or one of the recorded instants. -/
theorem winOf_recordAll (times : List ℤ) :
    ∀ (s : ModelState) (x : ℤ),
      x ∈ winOf (recordAll times s) → x ∈ winOf s ∨ x ∈ times := by
  induction times with
  | nil => exact fun s x hx => Or.inl hx
  | cons t ts ih =>
    intro s x hx
    rw [show recordAll (t :: ts) s = recordAll ts (recordModelRequest t s) from rfl] at hx
    rcases ih _ x hx with h | h
    · rcases winOf_recordModelRequest t s x h with h' | h'
      · exact Or.inl h'
      · exact Or.inr (by simp [h'])
    · exact Or.inr (List.mem_cons_of_mem _ h)

/-- A batch of requests keeps the window present. -/
theorem recordAll_isSome_pres (times : List ℤ) :
    ∀ s : ModelState, s.rpmWindow.isSome → (recordAll times s).rpmWindow.isSome := by
  induction times with
  | nil => exact fun s h => h
  | cons t ts ih =>
    intro s _
    rw [show recordAll (t :: ts) s = recordAll ts (recordModelRequest t s) from rfl]
    exact ih _ rfl

/-- After at least one recorded request the window is present. -/
theorem recordAll_isSome (times : List ℤ) (hne : times ≠ []) (s : ModelState) :
    (recordAll times s).rpmWindow.isSome := by
  cases times with
  | nil => exact absurd rfl hne
  | cons t ts =>
    rw [show recordAll (t :: ts) s = recordAll ts (recordModelRequest t s) from rfl]
    exact recordAll_isSome_pres ts _ rfl

/-- C8: for a model with a known RPM limit, recording any nonempty batch
of requests and then reading the load more than 60 s after every
recorded instant reports an RPM usage of exactly 0 (the pruning clears
the window), not the last value and not −1. -/
theorem rpm_zero_after_window :
    ∀ (l : ModelLimits) (s0 : ModelState) (times : List ℤ) (now : ℤ),
      s0.limits = some l → s0.rpmWindow = none → times ≠ [] →
      (∀ t ∈ times, RPM_WINDOW_MS < now - t) →
      (getLoadInfo now (recordAll times s0)).rpm = 0 := by
  intro l s0 times now hl hw hne hold
  obtain ⟨w, hw'⟩ := Option.isSome_iff_exists.mp (recordAll_isSome times hne s0)
  have hlim : (recordAll times s0).limits = some l := by rw [recordAll_limits, hl]
  have hfilter : w.filter (fun ts => decide (now - RPM_WINDOW_MS < ts)) = [] := by
    refine List.filter_eq_nil_iff.mpr fun x hx => ?_
    have hmem := winOf_recordAll times s0 x (by rw [winOf, hw']; exact hx)
    rcases hmem with h | h
    · rw [winOf, hw] at h
      simp at h
    · have := hold x h
      simp only [decide_eq_true_eq, not_lt]
      omega
  have hval : rpmUsagePercent now (recordAll times s0) =
      ((w.filter (fun ts => decide (now - RPM_WINDOW_MS < ts))).length : ℚ) /
        (l.rpm : ℚ) * 100 := by
    simp only [rpmUsagePercent, hlim, hw']
  rw [getLoadInfo_rpm, hval, hfilter]
  norm_num

/-- Witness for C8: one request at instant 0, read at instant 60001. -/
theorem rpm_zero_after_window_witness :
    (getLoadInfo 60001 (recordAll [0] rpmInitState)).rpm = 0 := by
  refine rpm_zero_after_window ⟨30, some 200000⟩ rpmInitState [0] 60001 rfl rfl
    (by simp) ?_
  intro t ht
  simp only [List.mem_singleton] at ht
  subst ht
  norm_num [RPM_WINDOW_MS]

theorem strLen_mk (l : List Char) : (String.mk l).length = l.length := rfl

theorem strLen_append (a b : String) : (a ++ b).length = a.length + b.length := by
  cases a with
  | mk la =>
    cases b with
    | mk lb =>
      show (String.mk (la ++ lb)).length = _
      simp [strLen_mk]

theorem strTake_length (s : String) (n : ℕ) : (strTake s n).length = min n s.length := by
  cases s with
  | mk l => simp [strTake, strLen_mk]

theorem ellipsis_length : ellipsis.length = 1 := rfl

/-- Unfolding lemma: the extraction loop on an exhausted chain. -/
theorem extractConditionGo_nil (o : ExtractOracles) (isAuto : Bool) (i : ℕ) :
    extractConditionGo o isAuto i [] = (⟨none, none⟩, []) := rfl

/-- Unfolding lemma: one step of the extraction loop. -/
theorem extractConditionGo_cons (o : ExtractOracles) (isAuto : Bool) (i : ℕ)
    (model : String) (rest : List String) :
    extractConditionGo o isAuto i (model :: rest) =
      match o.chat i with
      | ChatResult.err _ =>
        match rest with
        | [] => (⟨none, none⟩, [i])
        | _ :: _ =>
          let out := extractConditionGo o isAuto (i + 1) rest
          (out.1, i :: out.2)
      | ChatResult.ok result =>
        if result.length = 0 then
          match rest with
          | [] => (⟨none, none⟩, [i])
          | _ :: _ =>
            let out := extractConditionGo o isAuto (i + 1) rest
            (out.1, i :: out.2)
        else
          let detectedLang := if isAuto then o.langMatch i else none
          match o.condMatch i with
          | none =>
            match rest with
            | [] => (⟨none, detectedLang⟩, [i])
            | _ :: _ =>
              let out := extractConditionGo o isAuto (i + 1) rest
              (out.1, i :: out.2)
          | some captured =>
            if (strTrim captured).length = 0 then
              match rest with
              | [] => (⟨none, detectedLang⟩, [i])
              | _ :: _ =>
                let out := extractConditionGo o isAuto (i + 1) rest
                (out.1, i :: out.2)
            else
              let rawCond := strTrim captured
              let condition :=
                if CONDITION_LIMIT < rawCond.length then
                  match condense CONDITION_LIMIT (o.condenseChat i) with
                  | some c => c
                  | none => strTake rawCond (CONDITION_LIMIT - 1) ++ ellipsis
                else rawCond
              (⟨some condition, detectedLang⟩, [i]) := rfl

/-- Unfolding lemma: the search loop on an exhausted chain. -/
theorem fetchSearchContextGo_nil (o : SearchOracles) (i : ℕ) :
    fetchSearchContextGo o i [] = (⟨none, true⟩, []) := rfl

/-- Unfolding lemma: one step of the search loop. -/
theorem fetchSearchContextGo_cons (o : SearchOracles) (i : ℕ)
    (model : String) (rest : List String) :
    fetchSearchContextGo o i (model :: rest) =
      match o.chat i with
      | ChatResult.ok result =>
        if (result.length == 0) || (strTrim result == "NONE") then (⟨none, false⟩, [i])
        else (⟨some (strTrim result), false⟩, [i])
      | ChatResult.err _ =>
        match rest with
        | [] => (⟨none, true⟩, [i])
        | _ :: _ =>
          let out := fetchSearchContextGo o (i + 1) rest
          (out.1, i :: out.2) := rfl

/-- Unfolding lemma: the persona loop on an exhausted chain. -/
theorem queryPersonaGo_nil (o : PersonaOracles) (tMsg : String → String)
    (config : PersonaConfig) (language : SupportedLanguage) (i : ℕ) :
    queryPersonaGo o tMsg config language i [] =
      (⟨config.name, tMsg ("coreMalfunction"), Verdict.REFUSE, config.model,
        some ("All models exhausted")⟩, []) := rfl

/-- Unfolding lemma: one step of the persona loop. -/
theorem queryPersonaGo_cons (o : PersonaOracles) (tMsg : String → String)
    (config : PersonaConfig) (language : SupportedLanguage) (i : ℕ)
    (model : String) (rest : List String) :
    queryPersonaGo o tMsg config language i (model :: rest) =
      (if rest ≠ [] ∧ o.skip i = true then
        queryPersonaGo o tMsg config language (i + 1) rest
      else
        match o.chat i with
        | ChatResult.err msg =>
          match rest with
          | [] => (⟨config.name, tMsg ("coreMalfunction"), Verdict.REFUSE, model, some msg⟩, [i])
          | _ :: _ =>
            let out := queryPersonaGo o tMsg config language (i + 1) rest
            (out.1, i :: out.2)
        | ChatResult.ok content =>
          if (strTrim content).length = 0 then
            match rest with
            | [] =>
              (⟨config.name, tMsg ("coreMalfunction"), Verdict.REFUSE, model,
                some ("Empty response from model")⟩, [i])
            | _ :: _ =>
              let out := queryPersonaGo o tMsg config language (i + 1) rest
              (out.1, i :: out.2)
          else
            let final0 := strTrim content
            let final1 := personaShaped o language i final0
            if CHAR_LIMIT < final1.length then
              match condense CHAR_LIMIT (o.condenseChat i) with
              | none =>
                (⟨config.name, tMsg ("outputOverflow"), Verdict.REFUSE, model,
                  some ("Condense failed after max attempts")⟩, [i])
              | some condensed =>
                (⟨config.name, o.sanitize condensed, Verdict.REFUSE, model, none⟩, [i])
            else
              (⟨config.name, o.sanitize final1, Verdict.REFUSE, model, none⟩, [i])) := rfl

/-- Whatever `condense` returns respects its character budget. -/
theorem condense_length (limit : ℕ) (hpos : 0 < limit) (raw : ChatResult) (c : String) :
    condense limit raw = some c → c.length ≤ limit := by
  cases raw with
  | err msg => intro h; simp [condense] at h
  | ok result =>
    intro h
    simp only [condense] at h
    by_cases h0 : (strTrim result).length = 0
    · rw [if_pos h0] at h
      simp at h
    · rw [if_neg h0] at h
      by_cases hle : (strTrim result).length ≤ limit
      · rw [if_pos hle] at h
        have hc := Option.some.inj h
        rw [← hc]
        exact hle
      · rw [if_neg hle] at h
        have hc := Option.some.inj h
        rw [← hc, strLen_append, strTake_length, ellipsis_length]
        have hmin : min (limit - 1) (strTrim result).length = limit - 1 :=
          min_eq_left (by omega)
        omega

/-- C9: whenever the condition-extraction chain returns a condition, it
is at most `CONDITION_LIMIT` (120) characters long — an over-long raw
condition is replaced by the condense result (itself truncated with an
ellipsis when needed) or, when condensation fails, by the first 119
characters plus an ellipsis. -/
theorem extracted_condition_within_limit :
    ∀ (o : ExtractOracles) (isAuto : Bool) (models : List String) (i : ℕ) (c : String),
      (extractConditionGo o isAuto i models).1.condition = some c →
      c.length ≤ CONDITION_LIMIT := by
  intro o isAuto models
  induction models with
  | nil => intro i c h; rw [extractConditionGo_nil] at h; simp at h
  | cons m rest ih =>
    intro i c h
    rw [extractConditionGo_cons] at h
    cases hchat : o.chat i with
    | err msg =>
      simp only [hchat] at h
      cases rest with
      | nil => simp at h
      | cons r rs => exact ih (i + 1) c h
    | ok result =>
      simp only [hchat] at h
      by_cases hres : result.length = 0
      · rw [if_pos hres] at h
        cases rest with
        | nil => simp at h
        | cons r rs => exact ih (i + 1) c h
      · rw [if_neg hres] at h
        cases hcm : o.condMatch i with
        | none =>
          simp only [hcm] at h
          cases rest with
          | nil => simp at h
          | cons r rs => exact ih (i + 1) c h
        | some captured =>
          simp only [hcm] at h
          by_cases htrim : (strTrim captured).length = 0
          · rw [if_pos htrim] at h
            cases rest with
            | nil => simp at h
            | cons r rs => exact ih (i + 1) c h
          · rw [if_neg htrim] at h
            simp only at h
            have hc := Option.some.inj h
            rw [← hc]
            by_cases hlen : CONDITION_LIMIT < (strTrim captured).length
            · rw [if_pos hlen]
              cases hcd : condense CONDITION_LIMIT (o.condenseChat i) with
              | some c' =>
                simp only [hcd]
                exact condense_length CONDITION_LIMIT (by norm_num [CONDITION_LIMIT])
                  (o.condenseChat i) c' hcd
              | none =>
                simp only [hcd]
                rw [strLen_append, strTake_length, ellipsis_length]
                have h120 : CONDITION_LIMIT = 120 := rfl
                rw [h120] at hlen ⊢
                have hmin : min (120 - 1) (strTrim captured).length = 119 :=
                  min_eq_left (by omega)
                omega
            · rw [if_neg hlen]
              exact Nat.le_of_not_lt hlen

/-- Witness for C9: a two-character condition passes through within the
budget. -/
theorem extracted_condition_within_limit_witness :
    ("ok").length ≤ CONDITION_LIMIT :=
  extracted_condition_within_limit cexExtractO true DATA_MODELS 0 ("ok") (by decide)

/-- C6 counterexample: the first (primary) model answers immediately with
a usable 241-character text, the condensation call fails, and
`queryPersona` returns with `error` set — although only position 0 of the
3-model chain was attempted and the emergency model never failed. -/
theorem persona_error_claim_false :
    (queryPersona cexPersonaO (fun key => key) melchiorConfig SupportedLanguage.en).1.error =
      some ("Condense failed after max attempts") ∧
    (queryPersona cexPersonaO (fun key => key) melchiorConfig SupportedLanguage.en).2 = [0] ∧
    (personaModels melchiorConfig).length = 3 ∧
    cexPersonaO.chat 0 = ChatResult.ok longContent ∧
    longContent.length = 241 := by
  refine ⟨by decide, by decide, by decide, rfl, by decide⟩

/-- Error analysis of the persona loop: a returned error means the chain
was empty, or the attempt at the final position failed, or some attempted
answer overflowed the length cap with a failing condensation. -/
theorem queryPersonaGo_error_cases (o : PersonaOracles) (tMsg : String → String)
    (config : PersonaConfig) (language : SupportedLanguage) :
    ∀ (models : List String) (i : ℕ),
      (queryPersonaGo o tMsg config language i models).1.error ≠ none →
      models = [] ∨
        (attemptFailed o (i + models.length - 1) ∧
          (i + models.length - 1) ∈ (queryPersonaGo o tMsg config language i models).2) ∨
        (∃ j ∈ (queryPersonaGo o tMsg config language i models).2,
          overflowSoftError o language j) := by
  intro models
  induction models with
  | nil => intro i _; exact Or.inl rfl
  | cons m rest ih =>
    intro i h
    rw [queryPersonaGo_cons] at h ⊢
    by_cases hskip : rest ≠ [] ∧ o.skip i = true
    · rw [if_pos hskip] at h ⊢
      have hlen : 1 ≤ rest.length := List.length_pos.mpr hskip.1
      have harith : i + 1 + rest.length - 1 = i + (m :: rest).length - 1 := by
        simp only [List.length_cons]
        omega
      rcases ih (i + 1) h with hnil | ⟨hf, hm⟩ | ⟨j, hj, hov⟩
      · exact absurd hnil hskip.1
      · refine Or.inr (Or.inl ?_)
        rw [← harith]
        exact ⟨hf, hm⟩
      · exact Or.inr (Or.inr ⟨j, hj, hov⟩)
    · rw [if_neg hskip] at h ⊢
      cases hchat : o.chat i with
      | err msg =>
        simp only [hchat] at h ⊢
        cases rest with
        | nil =>
          refine Or.inr (Or.inl ⟨Or.inl ⟨msg, hchat⟩, ?_⟩)
          simp
        | cons r rs =>
          have harith : i + 1 + (r :: rs).length - 1 = i + (m :: r :: rs).length - 1 := by
            simp only [List.length_cons]
            omega
          rcases ih (i + 1) h with hnil | ⟨hf, hm⟩ | ⟨j, hj, hov⟩
          · exact absurd hnil (List.cons_ne_nil r rs)
          · refine Or.inr (Or.inl ?_)
            rw [← harith]
            exact ⟨hf, List.mem_cons_of_mem i hm⟩
          · exact Or.inr (Or.inr ⟨j, List.mem_cons_of_mem i hj, hov⟩)
      | ok content =>
        simp only [hchat] at h ⊢
        by_cases h0 : (strTrim content).length = 0
        · rw [if_pos h0] at h ⊢
          cases rest with
          | nil =>
            refine Or.inr (Or.inl ⟨Or.inr ⟨content, hchat, h0⟩, ?_⟩)
            simp
          | cons r rs =>
            have harith : i + 1 + (r :: rs).length - 1 = i + (m :: r :: rs).length - 1 := by
              simp only [List.length_cons]
              omega
            rcases ih (i + 1) h with hnil | ⟨hf, hm⟩ | ⟨j, hj, hov⟩
            · exact absurd hnil (List.cons_ne_nil r rs)
            · refine Or.inr (Or.inl ?_)
              rw [← harith]
              exact ⟨hf, List.mem_cons_of_mem i hm⟩
            · exact Or.inr (Or.inr ⟨j, List.mem_cons_of_mem i hj, hov⟩)
        · rw [if_neg h0] at h ⊢
          by_cases hbig : CHAR_LIMIT < (personaShaped o language i (strTrim content)).length
          · rw [if_pos hbig] at h ⊢
            cases hcd : condense CHAR_LIMIT (o.condenseChat i) with
            | none =>
              simp only [hcd] at h ⊢
              exact Or.inr (Or.inr ⟨i, by simp, content, hchat, h0, hbig, hcd⟩)
            | some cnd =>
              simp only [hcd] at h
              simp at h
          · rw [if_neg hbig] at h
            simp at h

/-- C6 (amended): the `error` field of a `queryPersona` response is set
only when the attempt on the last (emergency) model of the chain failed,
or when a model produced a usable answer that exceeded `CHAR_LIMIT` and
the condensation call failed (the output-overflow soft error); a chain
that ends in a shaped, within-budget answer carries no error. -/
theorem persona_error_amended :
    ∀ (o : PersonaOracles) (tMsg : String → String) (config : PersonaConfig)
      (language : SupportedLanguage),
      (queryPersona o tMsg config language).1.error ≠ none →
      (attemptFailed o ((personaModels config).length - 1) ∧
        ((personaModels config).length - 1) ∈ (queryPersona o tMsg config language).2) ∨
      (∃ j ∈ (queryPersona o tMsg config language).2, overflowSoftError o language j) := by
  intro o tMsg config language h
  rcases queryPersonaGo_error_cases o tMsg config language (personaModels config) 0 h with
    hnil | ⟨hf, hm⟩ | hov
  · exact absurd hnil (by simp [personaModels])
  · left
    constructor
    · simpa using hf
    · simpa using hm
  · right
    exact hov

/-- Witness for C6's amended statement: a chain whose three models all
fail ends with the emergency attempt failed. -/
theorem persona_error_amended_witness :
    (attemptFailed wPersonaO ((personaModels melchiorConfig).length - 1) ∧
      ((personaModels melchiorConfig).length - 1) ∈
        (queryPersona wPersonaO (fun key => key) melchiorConfig SupportedLanguage.en).2) ∨
    (∃ j ∈ (queryPersona wPersonaO (fun key => key) melchiorConfig SupportedLanguage.en).2,
      overflowSoftError wPersonaO SupportedLanguage.en j) :=
  persona_error_amended wPersonaO (fun key => key) melchiorConfig SupportedLanguage.en
    (by decide)

/-- An attempted position carrying a true skip value can only be the
final position of the chain: every skip-eligible non-final position is
passed over without an attempt. -/
theorem queryPersonaGo_skip_not_attempted (o : PersonaOracles) (tMsg : String → String)
    (config : PersonaConfig) (language : SupportedLanguage) :
    ∀ (models : List String) (i j : ℕ),
      j ∈ (queryPersonaGo o tMsg config language i models).2 → o.skip j = true →
      j = i + models.length - 1 := by
  intro models
  induction models with
  | nil =>
    intro i j hj _
    rw [queryPersonaGo_nil] at hj
    simp at hj
  | cons m rest ih =>
    intro i j hj hsk
    rw [queryPersonaGo_cons] at hj
    by_cases hskip : rest ≠ [] ∧ o.skip i = true
    · rw [if_pos hskip] at hj
      have hlen : 1 ≤ rest.length := List.length_pos.mpr hskip.1
      have := ih (i + 1) j hj hsk
      simp only [List.length_cons]
      omega
    · rw [if_neg hskip] at hj
      cases hchat : o.chat i with
      | err msg =>
        simp only [hchat] at hj
        cases rest with
        | nil =>
          simp only [List.mem_singleton] at hj
          simp [hj]
        | cons r rs =>
          rcases List.mem_cons.mp hj with hji | hji
          · subst hji
            have hfalse : o.skip j = false := by
              rcases not_and_or.mp hskip with hc | hc
              · exact absurd (List.cons_ne_nil r rs) hc
              · simpa using hc
            rw [hfalse] at hsk
            cases hsk
          · have := ih (i + 1) j hji hsk
            simp only [List.length_cons] at this ⊢
            omega
      | ok content =>
        simp only [hchat] at hj
        by_cases h0 : (strTrim content).length = 0
        · rw [if_pos h0] at hj
          cases rest with
          | nil =>
            simp only [List.mem_singleton] at hj
            simp [hj]
          | cons r rs =>
            rcases List.mem_cons.mp hj with hji | hji
            · subst hji
              have hfalse : o.skip j = false := by
                rcases not_and_or.mp hskip with hc | hc
                · exact absurd (List.cons_ne_nil r rs) hc
                · simpa using hc
              rw [hfalse] at hsk
              cases hsk
            · have := ih (i + 1) j hji hsk
              simp only [List.length_cons] at this ⊢
              omega
        · rw [if_neg h0] at hj
          by_cases hbig : CHAR_LIMIT < (personaShaped o language i (strTrim content)).length
          · rw [if_pos hbig] at hj
            cases hcd : condense CHAR_LIMIT (o.condenseChat i) with
            | none =>
              simp only [hcd, List.mem_singleton] at hj
              cases rest with
              | nil => simp [hj]
              | cons r rs =>
                subst hj
                rcases not_and_or.mp hskip with hc | hc
                · exact absurd (List.cons_ne_nil r rs) hc
                · simp only [Bool.not_eq_true] at hc
                  rw [hc] at hsk
                  cases hsk
            | some cnd =>
              simp only [hcd, List.mem_singleton] at hj
              cases rest with
              | nil => simp [hj]
              | cons r rs =>
                subst hj
                rcases not_and_or.mp hskip with hc | hc
                · exact absurd (List.cons_ne_nil r rs) hc
                · simp only [Bool.not_eq_true] at hc
                  rw [hc] at hsk
                  cases hsk
          · rw [if_neg hbig] at hj
            simp only [List.mem_singleton] at hj
            cases rest with
            | nil => simp [hj]
            | cons r rs =>
              subst hj
              rcases not_and_or.mp hskip with hc | hc
              · exact absurd (List.cons_ne_nil r rs) hc
              · simp only [Bool.not_eq_true] at hc
                rw [hc] at hsk
                cases hsk

/-- When every chat attempt fails, the loop walks down to the final
position and attempts it, whatever the skip values are. -/
theorem queryPersonaGo_last_attempted (o : PersonaOracles) (tMsg : String → String)
    (config : PersonaConfig) (language : SupportedLanguage)
    (hall : ∀ k, ∃ msg, o.chat k = ChatResult.err msg) :
    ∀ (models : List String) (i : ℕ), models ≠ [] →
      (i + models.length - 1) ∈ (queryPersonaGo o tMsg config language i models).2 := by
  intro models
  induction models with
  | nil => intro i h; exact absurd rfl h
  | cons m rest ih =>
    intro i _
    rw [queryPersonaGo_cons]
    obtain ⟨msg, hmsg⟩ := hall i
    by_cases hskip : rest ≠ [] ∧ o.skip i = true
    · rw [if_pos hskip]
      have hlen : 1 ≤ rest.length := List.length_pos.mpr hskip.1
      have := ih (i + 1) hskip.1
      have harith : i + 1 + rest.length - 1 = i + (m :: rest).length - 1 := by
        simp only [List.length_cons]
        omega
      rwa [harith] at this
    · rw [if_neg hskip]
      simp only [hmsg]
      cases rest with
      | nil => simp
      | cons r rs =>
        have := ih (i + 1) (List.cons_ne_nil r rs)
        have harith : i + 1 + (r :: rs).length - 1 = i + (m :: r :: rs).length - 1 := by
          simp only [List.length_cons]
          omega
        rw [harith] at this
        exact List.mem_cons_of_mem i this

/-- The extraction loop attempts its current model unconditionally. -/
theorem extractConditionGo_head_attempted (o : ExtractOracles) (isAuto : Bool)
    (i : ℕ) (m : String) (rest : List String) :
    i ∈ (extractConditionGo o isAuto i (m :: rest)).2 := by
  rw [extractConditionGo_cons]
  cases hchat : o.chat i with
  | err msg =>
    cases rest <;> simp
  | ok result =>
    dsimp only
    by_cases hres : result.length = 0
    · rw [if_pos hres]
      cases rest <;> simp
    · rw [if_neg hres]
      cases hcm : o.condMatch i with
      | none => cases rest <;> simp
      | some captured =>
        dsimp only
        by_cases htrim : (strTrim captured).length = 0
        · rw [if_pos htrim]
          cases rest <;> simp
        · rw [if_neg htrim]
          simp

/-- The search loop attempts its current model unconditionally. -/
theorem fetchSearchContextGo_head_attempted (o : SearchOracles)
    (i : ℕ) (m : String) (rest : List String) :
    i ∈ (fetchSearchContextGo o i (m :: rest)).2 := by
  rw [fetchSearchContextGo_cons]
  cases hchat : o.chat i with
  | err msg => cases rest <;> simp
  | ok result =>
    dsimp only
    by_cases hres : (result.length == 0) || (strTrim result == "NONE")
    · rw [if_pos hres]
      simp
    · rw [if_neg hres]
      simp

/-- C2 counterexample: `s95` makes `shouldSkipModel` report true, yet the
condition-extraction chain attempts its first model (position 0 of 2, not
the last) and the search chain does the same — neither loop consults
`shouldSkipModel` at all, contradicting the claim that the skip policy is
applied in every sub-pipeline. -/
theorem fallback_skip_claim_false :
    shouldSkipModel 0 s95 = true ∧
    DATA_MODELS.length = 2 ∧
    SEARCH_MODELS.length = 2 ∧
    0 ∈ (extractCondition cexExtractO true).2 ∧
    0 ∈ (fetchSearchContext cexSearchO).2 := by
  refine ⟨?_, by decide, by decide, by decide, by decide⟩
  have hrpd : dimensionUsage 0 (100 : ℤ) 0 10 = 100 := by
    rw [dimensionUsage, if_neg (by norm_num), if_neg (by norm_num)]
    norm_num [min_def, max_def]
  simp only [shouldSkipModel, getLoadInfo, s95, rpmUsagePercent, tpdUsagePercent,
    SKIP_THRESHOLD, hrpd]
  norm_num

/-- C2 (amended): only the persona chain applies the load-based skip —
there, an attempted position with a true skip value can only be the final
one (every skip-eligible non-final model is passed over unattempted),
and a chain of failing models always reaches and attempts the final
(emergency) model regardless of the skip values; the condition-extraction
and search-context chains attempt their current model unconditionally,
never consulting the tracker. -/
theorem fallback_skip_amended :
    (∀ (o : PersonaOracles) (tMsg : String → String) (config : PersonaConfig)
      (language : SupportedLanguage) (models : List String) (i j : ℕ),
        j ∈ (queryPersonaGo o tMsg config language i models).2 → o.skip j = true →
        j = i + models.length - 1) ∧
    (∀ (o : PersonaOracles) (tMsg : String → String) (config : PersonaConfig)
      (language : SupportedLanguage) (models : List String) (i : ℕ),
        (∀ k, ∃ msg, o.chat k = ChatResult.err msg) → models ≠ [] →
        (i + models.length - 1) ∈ (queryPersonaGo o tMsg config language i models).2) ∧
    (∀ (o : ExtractOracles) (isAuto : Bool) (i : ℕ) (m : String) (rest : List String),
        i ∈ (extractConditionGo o isAuto i (m :: rest)).2) ∧
    (∀ (o : SearchOracles) (i : ℕ) (m : String) (rest : List String),
        i ∈ (fetchSearchContextGo o i (m :: rest)).2) :=
  ⟨fun o tMsg config language models i j => queryPersonaGo_skip_not_attempted
      o tMsg config language models i j,
   fun o tMsg config language models i hall =>
      queryPersonaGo_last_attempted o tMsg config language hall models i,
   extractConditionGo_head_attempted,
   fetchSearchContextGo_head_attempted⟩

/-- Witness for C2's amended statement: with every model overloaded and
every call failing, the emergency position of MELCHIOR's chain is still
attempted. -/
theorem fallback_skip_amended_witness :
    (0 + (personaModels melchiorConfig).length - 1) ∈
      (queryPersonaGo wPersonaO (fun key => key) melchiorConfig SupportedLanguage.en 0
        (personaModels melchiorConfig)).2 :=
  fallback_skip_amended.2.1 wPersonaO (fun key => key) melchiorConfig SupportedLanguage.en
    (personaModels melchiorConfig) 0 (fun _ => ⟨"down", rfl⟩) (by decide)

/-- C10: when the requested language is not `auto`, the `language` field
of the deliberation equals the requested language whatever every oracle
(model output, local detector) does; moreover, in non-auto mode the
extraction loop never reports a detected language (the LANG line is only
parsed under `auto`), so detection cannot influence the result. -/
theorem deliberate_language_respects_request :
    (∀ (o : DeliberateOracles) (question : String) (lang : SupportedLanguage)
      (imageBase64 userContext fileContext : Option String),
      (deliberate o question (LangChoice.fixed lang) imageBase64 userContext
        fileContext).language = lang) ∧
    (∀ (o : ExtractOracles) (models : List String) (i : ℕ),
      (extractConditionGo o false i models).1.detectedLang = none) := by
  constructor
  · intro o question lang imageBase64 userContext fileContext
    rfl
  · intro o models
    induction models with
    | nil =>
      intro i
      rw [extractConditionGo_nil]
    | cons m rest ih =>
      intro i
      rw [extractConditionGo_cons]
      cases hchat : o.chat i with
      | err msg =>
        dsimp only
        cases rest with
        | nil => rfl
        | cons r rs => simpa using ih (i + 1)
      | ok result =>
        dsimp only
        by_cases hres : result.length = 0
        · rw [if_pos hres]
          cases rest with
          | nil => rfl
          | cons r rs => simpa using ih (i + 1)
        · rw [if_neg hres]
          cases hcm : o.condMatch i with
          | none =>
            dsimp only
            cases rest with
            | nil => simp
            | cons r rs => simpa using ih (i + 1)
          | some captured =>
            dsimp only
            by_cases htrim : (strTrim captured).length = 0
            · rw [if_pos htrim]
              cases rest with
              | nil => simp
              | cons r rs => simpa using ih (i + 1)
            · rw [if_neg htrim]
              simp

end Magi
